import Mathlib

/-!
# Verification of the spin CLI dispatch front-end (src/bin/spin.rs)

Shallow embedding of the command-resolution and dispatch front-end:
plugin catalog assembly (`plugin_help_entries`, `installed_plugin_help_entries`,
`hide_plugin_in_help`), command-tree construction, the invocation resolver of
`_main`, and `print_error_chain`.  External collaborators (the plugin store,
the predefined externals table, clap's parser) are modelled by explicit
parameters and a small faithful fragment of their behavior.
-/

namespace Spin

/-- Rust `str::starts_with`: the pattern is a prefix of the character sequence. -/
def strStartsWith (s pat : String) : Bool :=
  pat.data.isPrefixOf s.data

/-- `spin_plugins::manifest::PluginManifest`, restricted to the two accessors
the front-end consumes: `name()` and optional `description()`. -/
structure PluginManifest where
  name : String
  description : Option String
  deriving DecidableEq, Repr

/-- `hide_plugin_in_help`: a plugin is hidden from help when its name begins
with the reserved prefix `trigger-`. -/
def hide_plugin_in_help (plugin : PluginManifest) : Bool :=
  strStartsWith plugin.name "trigger-"

/-- `PluginHelpEntry { name, about }`. -/
structure PluginHelpEntry where
  name : String
  about : String
  deriving DecidableEq, Repr

/-- `PluginHelpEntry::from_plugin`: `None` for hidden plugins, otherwise the
name together with the description (empty string when none is declared). -/
def PluginHelpEntry.from_plugin (plugin : PluginManifest) : Option PluginHelpEntry :=
  if hide_plugin_in_help plugin then none
  else some { name := plugin.name, about := plugin.description.getD "" }

/-- `PluginHelpEntry::display_text`: the plugin name suffixed with `*`. -/
def PluginHelpEntry.display_text (e : PluginHelpEntry) : String :=
  e.name ++ "*"

/-- Outcome of querying the plugin manager's local store:
`PluginManager::try_default()` may fail, `store().installed_manifests()` may
fail, or a list of installed manifests is returned. -/
inductive StoreResult where
  | managerErr
  | manifestsErr
  | ok (manifests : List PluginManifest)
  deriving DecidableEq, Repr

/-- `installed_plugin_help_entries`: on either store failure return the empty
list; otherwise `filter_map` the manifests through `PluginHelpEntry::from_plugin`. -/
def installed_plugin_help_entries (store : StoreResult) : List PluginHelpEntry :=
  match store with
  | .managerErr => []
  | .manifestsErr => []
  | .ok manifests => manifests.filterMap PluginHelpEntry.from_plugin

/-- Modelled from the spec: `spin_cli::commands::external::predefined_externals`
is not under src/; the spec describes it only as "a static, compiled-in mapping
from plugin name to description", so the table is an arbitrary list of
name/description pairs taken as a parameter. -/
def PredefinedExternals : Type := List (String × String)

/-- The loop body of `plugin_help_entries`: push a predefined `(name, about)`
pair unless an entry with that name is already present. -/
def pushPredefined (entries : List PluginHelpEntry) (na : String × String) :
    List PluginHelpEntry :=
  if entries.any (fun e => e.name == na.1) then entries
  else entries ++ [{ name := na.1, about := na.2 }]

/-- `plugin_help_entries`: start from the locally installed entries, then for
each `(name, about)` of the predefined externals push an entry unless an entry
with that name is already present. -/
def plugin_help_entries (store : StoreResult) (predefined : List (String × String)) :
    List PluginHelpEntry :=
  predefined.foldl pushPredefined (installed_plugin_help_entries store)

/-- The command tree fragment the front-end manipulates: the set of top-level
subcommand node names and the optional after-help footer. -/
structure Cmd where
  subcommand_names : List String
  after_help : Option String
  deriving DecidableEq, Repr

/-- The statically declared top-level names of the `SpinApp` clap derive
(variant names in clap's kebab-case form; the `External` catch-all variant
declares no named node). -/
def spinAppBuiltinNames : List String :=
  ["templates", "new", "add", "up", "deploy", "login", "registry",
   "build", "plugins", "trigger", "watch", "doctor"]

/-- `SpinApp::command()`: the statically declared tree, before synthetic
plugin nodes are added; no after-help footer is set. -/
def SpinApp.command : Cmd :=
  { subcommand_names := spinAppBuiltinNames, after_help := none }

/-- The tree built in `_main`: one synthetic subcommand per catalog entry,
registered under `display_text()` (the marked name), then the
`* implemented via plugin` footer when the catalog is non-empty. -/
def mainCommandTree (entries : List PluginHelpEntry) : Cmd :=
  let cmd : Cmd :=
    { SpinApp.command with
      subcommand_names :=
        SpinApp.command.subcommand_names ++ entries.map PluginHelpEntry.display_text }
  if entries.isEmpty then cmd
  else { cmd with after_help := some "* implemented via plugin" }

/-- clap resolves the three declared top-level aliases to the canonical
variant name; every other token is reported as typed. -/
def clapAlias (tok : String) : String :=
  if tok = "template" then "templates"
  else if tok = "oci" then "registry"
  else if tok = "plugin" then "plugins"
  else tok

/-- The name part of `matches.subcommand()` after parsing `args` (the tokens
following the program name): the first token when it is not a flag, with
aliases canonicalized; flags and an empty invocation yield no subcommand. -/
def parsed_subcommand (args : List String) : Option String :=
  match args with
  | [] => none
  | tok :: _ => if strStartsWith tok "-" then none else some (clapAlias tok)

/-- The `SpinApp` variants relevant to dispatch.  `External` is clap's
catch-all for subcommand names matched by no declared variant; it carries the
raw token sequence starting with the subcommand name. -/
inductive SpinVariant where
  | Templates | New | Add | Up | Deploy | Login | Registry
  | Build | Plugins | Trigger | Watch | Doctor
  | External (argv : List String)
  deriving DecidableEq, Repr

/-- `SpinApp::from_arg_matches`: a parsed subcommand name selects the variant
of that name; any other name falls to the `External` catch-all together with
the remaining tokens. -/
def SpinApp.from_arg_matches (subcmd : String) (rest : List String) : SpinVariant :=
  if subcmd = "templates" then .Templates
  else if subcmd = "new" then .New
  else if subcmd = "add" then .Add
  else if subcmd = "up" then .Up
  else if subcmd = "deploy" then .Deploy
  else if subcmd = "login" then .Login
  else if subcmd = "registry" then .Registry
  else if subcmd = "build" then .Build
  else if subcmd = "plugins" then .Plugins
  else if subcmd = "trigger" then .Trigger
  else if subcmd = "watch" then .Watch
  else if subcmd = "doctor" then .Doctor
  else .External (subcmd :: rest)

/-- What one invocation of the front-end does after parsing: run the handler
compiled into a built-in variant, hand an argument vector to
`execute_external_subcommand`, or dispatch no subcommand at all. -/
inductive Outcome where
  | builtinHandler (v : SpinVariant)
  | execExternal (argv : List String)
  | noSubcommand
  deriving DecidableEq, Repr

/-- `SpinApp::run`: the `External` variant forwards its vector to
`execute_external_subcommand`; every named variant runs its own handler. -/
def SpinApp.run : SpinVariant → Outcome
  | .External argv => .execExternal argv
  | v => .builtinHandler v

/-- The catalog-match test of `_main`: does the parsed top-level subcommand
name equal some catalog entry's (unmarked) name? -/
def catalogMatch (entries : List PluginHelpEntry) (subcmd : String) : Bool :=
  entries.any (fun e => e.name == subcmd)

/-- The dispatch logic of `_main` on the tokens after the program name: when
the parsed subcommand matches a catalog entry, `execute_external_subcommand`
receives `std::env::args().skip(1)` — the original tokens with only the
program name stripped; otherwise `SpinApp::from_arg_matches(..).run(..)`. -/
def mainDispatch (entries : List PluginHelpEntry) (args : List String) : Outcome :=
  match parsed_subcommand args with
  | none => .noSubcommand
  | some subcmd =>
    if catalogMatch entries subcmd then .execExternal args
    else SpinApp.run (SpinApp.from_arg_matches subcmd args.tail)

/-- Does the outcome run a handler compiled into the binary? -/
def Outcome.runsBuiltin : Outcome → Bool
  | .builtinHandler _ => true
  | _ => false

/-- Does the outcome hand an argument vector to `execute_external_subcommand`? -/
def Outcome.forwardsExternal : Outcome → Bool
  | .execExternal _ => true
  | _ => false

/-- The clap node name a `SpinApp` variant is declared under (`none` for the
`External` catch-all, which declares no named node). -/
def SpinVariant.builtinName : SpinVariant → Option String
  | .Templates => some "templates"
  | .New => some "new"
  | .Add => some "add"
  | .Up => some "up"
  | .Deploy => some "deploy"
  | .Login => some "login"
  | .Registry => some "registry"
  | .Build => some "build"
  | .Plugins => some "plugins"
  | .Trigger => some "trigger"
  | .Watch => some "watch"
  | .Doctor => some "doctor"
  | .External _ => none

/-- An anyhow error chain: the top-level message and the list of messages of
its transitive causes (`err.chain().skip(1)`). -/
structure ErrorChain where
  msg : String
  causes : List String
  deriving DecidableEq, Repr

/-- `{i:>4}`: decimal rendering of `i` right-aligned in a field of width 4. -/
def rightAlign4 (i : Nat) : String :=
  let s := toString i
  String.mk (List.replicate (4 - s.length) ' ') ++ s

/-- `print_error_chain`, as the list of lines written to stderr: nothing when
the error has no source; otherwise a blank line and `Caused by:`, then each
cause — numbered `{i:>4}: ` when the first cause itself has a source (two or
more causes), else indented by six spaces. -/
def print_error_chain (err : ErrorChain) : List String :=
  match err.causes with
  | [] => []
  | cause :: rest =>
    let is_multiple := !rest.isEmpty
    ["", "Caused by:"] ++
      ((cause :: rest).enum.map fun p =>
        if is_multiple then rightAlign4 p.1 ++ ": " ++ p.2
        else "      " ++ p.2)

/-! ## Catalog lemmas -/

theorem any_name_iff {l : List PluginHelpEntry} {n : String} :
    l.any (fun e => e.name == n) = true ↔ ∃ e ∈ l, e.name = n := by
  simp [List.any_eq_true]

theorem mem_foldl_pushPredefined (pre : List (String × String)) :
    ∀ init, ∀ e ∈ pre.foldl pushPredefined init, e ∈ init ∨ (e.name, e.about) ∈ pre := by
  induction pre with
  | nil => intro init e he; exact Or.inl he
  | cons a pre ih =>
    intro init e he
    rw [List.foldl_cons] at he
    rcases ih (pushPredefined init a) e he with h | h
    · unfold pushPredefined at h
      split at h
      · exact Or.inl h
      · rcases List.mem_append.mp h with h | h
        · exact Or.inl h
        · rcases List.mem_singleton.mp h with rfl
          exact Or.inr (by simp)
    · exact Or.inr (List.mem_cons_of_mem _ h)

theorem filter_foldl_pushPredefined (pre : List (String × String)) :
    ∀ init n, init.any (fun e => e.name == n) = true →
      (pre.foldl pushPredefined init).filter (fun e => e.name == n)
        = init.filter (fun e => e.name == n) := by
  induction pre with
  | nil => intro init n _; rfl
  | cons a pre ih =>
    intro init n h
    rw [List.foldl_cons]
    by_cases hc : init.any (fun e => e.name == a.1) = true
    · rw [show pushPredefined init a = init from by simp [pushPredefined, hc]]
      exact ih init n h
    · have hb : pushPredefined init a = init ++ [⟨a.1, a.2⟩] := by
        simp only [pushPredefined, if_neg hc]
      have h' : (init ++ [(⟨a.1, a.2⟩ : PluginHelpEntry)]).any (fun e => e.name == n) = true := by
        rw [List.any_append, h, Bool.true_or]
      rw [hb, ih _ n h', List.filter_append]
      have hne : a.1 ≠ n := by
        intro hn
        exact hc (hn ▸ h)
      have hb2 : ((⟨a.1, a.2⟩ : PluginHelpEntry).name == n) = false :=
        beq_eq_false_iff_ne.mpr hne
      simp [List.filter_cons, hb2]

theorem nodup_foldl_pushPredefined (pre : List (String × String)) :
    ∀ init, (init.map PluginHelpEntry.name).Nodup →
      ((pre.foldl pushPredefined init).map PluginHelpEntry.name).Nodup := by
  induction pre with
  | nil => intro _ h; exact h
  | cons a pre ih =>
    intro init h
    rw [List.foldl_cons]
    by_cases hc : init.any (fun e => e.name == a.1) = true
    · rw [show pushPredefined init a = init from by simp [pushPredefined, hc]]
      exact ih init h
    · have hb : pushPredefined init a = init ++ [⟨a.1, a.2⟩] := by
        simp only [pushPredefined, if_neg hc]
      rw [hb]
      apply ih
      rw [List.map_append]
      refine List.Nodup.append h (List.nodup_singleton _) ?_
      intro x hx hx'
      rcases List.mem_singleton.mp hx' with rfl
      rcases List.mem_map.mp hx with ⟨e, he, hen⟩
      exact hc (any_name_iff.mpr ⟨e, he, hen⟩)

theorem from_plugin_eq_some {m : PluginManifest} {e : PluginHelpEntry} :
    PluginHelpEntry.from_plugin m = some e ↔
      hide_plugin_in_help m = false ∧ e = ⟨m.name, m.description.getD ""⟩ := by
  unfold PluginHelpEntry.from_plugin
  split
  · next hhide =>
    constructor
    · intro h
      exact absurd h (by simp)
    · rintro ⟨hf, _⟩
      rw [hhide] at hf
      exact Bool.noConfusion hf
  · next hhide =>
    have hf : hide_plugin_in_help m = false := by
      revert hhide
      cases hide_plugin_in_help m <;> simp
    constructor
    · intro h
      exact ⟨hf, (Option.some.inj h).symm⟩
    · rintro ⟨_, rfl⟩
      rfl

theorem mem_installed {ms : List PluginManifest} {e : PluginHelpEntry} :
    e ∈ installed_plugin_help_entries (.ok ms) ↔
      ∃ m ∈ ms, hide_plugin_in_help m = false ∧ e = ⟨m.name, m.description.getD ""⟩ := by
  show e ∈ ms.filterMap PluginHelpEntry.from_plugin ↔ _
  rw [List.mem_filterMap]
  constructor
  · rintro ⟨m, hm, hfp⟩
    rcases from_plugin_eq_some.mp hfp with ⟨hh, rfl⟩
    exact ⟨m, hm, hh, rfl⟩
  · rintro ⟨m, hm, hh, rfl⟩
    exact ⟨m, hm, from_plugin_eq_some.mpr ⟨hh, rfl⟩⟩

theorem name_mem_of_mem_installed {ms : List PluginManifest} {e : PluginHelpEntry}
    (h : e ∈ installed_plugin_help_entries (.ok ms)) :
    e.name ∈ ms.map PluginManifest.name := by
  rcases mem_installed.mp h with ⟨m, hm, _, rfl⟩
  exact List.mem_map.mpr ⟨m, hm, rfl⟩

theorem installed_filter_eq {ms : List PluginManifest}
    (hnd : (ms.map PluginManifest.name).Nodup)
    {m : PluginManifest} (hm : m ∈ ms) (hh : hide_plugin_in_help m = false) :
    (installed_plugin_help_entries (.ok ms)).filter (fun e => e.name == m.name)
      = [⟨m.name, m.description.getD ""⟩] := by
  induction ms with
  | nil => cases hm
  | cons m0 tl ih =>
    have hnd0 : m0.name ∉ tl.map PluginManifest.name := (List.nodup_cons.mp hnd).1
    have hndtl : (tl.map PluginManifest.name).Nodup := (List.nodup_cons.mp hnd).2
    have hstep : installed_plugin_help_entries (.ok (m0 :: tl))
        = (m0 :: tl).filterMap PluginHelpEntry.from_plugin := rfl
    rcases List.mem_cons.mp hm with rfl | hm'
    · have h0 : PluginHelpEntry.from_plugin m = some ⟨m.name, m.description.getD ""⟩ :=
        from_plugin_eq_some.mpr ⟨hh, rfl⟩
      have htl : (installed_plugin_help_entries (.ok tl)).filter
          (fun e => e.name == m.name) = [] := by
        rw [List.filter_eq_nil_iff]
        intro e he
        have hmem := name_mem_of_mem_installed he
        simp only [beq_iff_eq]
        intro hen
        exact hnd0 (hen ▸ hmem)
      rw [hstep, List.filterMap_cons_some h0, List.filter_cons]
      have htrue : ((⟨m.name, m.description.getD ""⟩ : PluginHelpEntry).name == m.name)
          = true := beq_self_eq_true m.name
      rw [htrue]
      simp only [if_true]
      rw [show tl.filterMap PluginHelpEntry.from_plugin
            = installed_plugin_help_entries (.ok tl) from rfl, htl]
    · have hne : m0.name ≠ m.name := by
        intro hn
        exact hnd0 (hn ▸ List.mem_map.mpr ⟨m, hm', rfl⟩)
      rw [hstep]
      cases h0 : PluginHelpEntry.from_plugin m0 with
      | none =>
        rw [List.filterMap_cons_none h0]
        exact ih hndtl hm'
      | some e0 =>
        have he0 : (e0.name == m.name) = false := by
          rcases from_plugin_eq_some.mp h0 with ⟨_, rfl⟩
          exact beq_eq_false_iff_ne.mpr hne
        rw [List.filterMap_cons_some h0, List.filter_cons, he0]
        simp only [Bool.false_eq_true, if_false]
        exact ih hndtl hm'

/-! ## Dispatch lemmas -/

theorem mainCommandTree_names (entries : List PluginHelpEntry) :
    (mainCommandTree entries).subcommand_names
      = spinAppBuiltinNames ++ entries.map PluginHelpEntry.display_text := by
  unfold mainCommandTree SpinApp.command
  split <;> rfl

/-! ## Claim theorems -/

/-- C1: whenever the parsed top-level subcommand name equals the name of some
catalog entry, `_main` hands the invocation to `execute_external_subcommand`
and never runs a built-in handler, even though the command tree also carries a
synthetic node for that plugin (registered under its marked display text). -/
theorem catalog_name_always_forwards
    (entries : List PluginHelpEntry) (args : List String) (subcmd : String)
    (e : PluginHelpEntry) (hp : parsed_subcommand args = some subcmd)
    (he : e ∈ entries) (hn : e.name = subcmd) :
    mainDispatch entries args = .execExternal args ∧
    (mainDispatch entries args).runsBuiltin = false ∧
    e.display_text ∈ (mainCommandTree entries).subcommand_names := by
  have hc : catalogMatch entries subcmd = true := any_name_iff.mpr ⟨e, he, hn⟩
  have hd : mainDispatch entries args = .execExternal args := by
    unfold mainDispatch
    rw [hp]
    simp [hc]
  refine ⟨hd, by rw [hd]; rfl, ?_⟩
  rw [mainCommandTree_names]
  exact List.mem_append_right _ (List.mem_map.mpr ⟨e, he, rfl⟩)

/-- Witness for C1 at the catalog `[cloud]` and invocation `spin cloud --flag`. -/
theorem catalog_name_always_forwards_witness :
    mainDispatch [⟨"cloud", "d"⟩] ["cloud", "--flag"]
        = .execExternal ["cloud", "--flag"] ∧
    (mainDispatch [⟨"cloud", "d"⟩] ["cloud", "--flag"]).runsBuiltin = false ∧
    PluginHelpEntry.display_text ⟨"cloud", "d"⟩
        ∈ (mainCommandTree [⟨"cloud", "d"⟩]).subcommand_names :=
  catalog_name_always_forwards [⟨"cloud", "d"⟩] ["cloud", "--flag"] "cloud"
    ⟨"cloud", "d"⟩ (by decide) (by decide) (by decide)

/-- C2 (counterexample): with catalog entry `deploy-helper` and tokens
`["deploy-helper", "--weird-flag", "value"]`, the vector handed to
`execute_external_subcommand` still begins with the subcommand name — it is
`std::env::args().skip(1)`, which strips only the program name — so the
forwarder does not receive `["--weird-flag", "value"]`. -/
theorem forward_argv_keeps_subcommand_name :
    mainDispatch [⟨"deploy-helper", ""⟩] ["deploy-helper", "--weird-flag", "value"]
        ≠ .execExternal ["--weird-flag", "value"] ∧
    mainDispatch [⟨"deploy-helper", ""⟩] ["deploy-helper", "--weird-flag", "value"]
        = .execExternal ["deploy-helper", "--weird-flag", "value"] := by
  decide

/-- C2 (amended): on a catalog match the argument vector handed to
`execute_external_subcommand` is exactly the original tokens with only the
program name stripped — the subcommand name stays as the first element and
nothing else is altered. -/
theorem forward_argv_strips_program_name_only
    (entries : List PluginHelpEntry) (head : String) (rest : List String)
    (subcmd : String) (e : PluginHelpEntry)
    (hp : parsed_subcommand (head :: rest) = some subcmd)
    (he : e ∈ entries) (hn : e.name = subcmd) :
    mainDispatch entries (head :: rest) = .execExternal (head :: rest) := by
  have hc : catalogMatch entries subcmd = true := any_name_iff.mpr ⟨e, he, hn⟩
  unfold mainDispatch
  rw [hp]
  simp [hc]

/-- Witness for the amended C2 at `spin deploy-helper --weird-flag value`. -/
theorem forward_argv_strips_program_name_only_witness :
    mainDispatch [⟨"deploy-helper", ""⟩] ["deploy-helper", "--weird-flag", "value"]
      = .execExternal ["deploy-helper", "--weird-flag", "value"] :=
  forward_argv_strips_program_name_only [⟨"deploy-helper", ""⟩] "deploy-helper"
    ["--weird-flag", "value"] "deploy-helper" ⟨"deploy-helper", ""⟩
    (by decide) (by decide) (by decide)

/-- C3: a plugin name installed locally (non-hidden) and also present in the
predefined table yields exactly one catalog entry, carrying the locally
installed description (empty string when none), not the predefined one. -/
theorem local_description_wins
    (ms : List PluginManifest) (pre : List (String × String))
    (hnd : (ms.map PluginManifest.name).Nodup)
    (m : PluginManifest) (hm : m ∈ ms) (hh : hide_plugin_in_help m = false)
    (d : String) (_hd : (m.name, d) ∈ pre) :
    (plugin_help_entries (.ok ms) pre).filter (fun e => e.name == m.name)
      = [⟨m.name, m.description.getD ""⟩] := by
  have hmem : (⟨m.name, m.description.getD ""⟩ : PluginHelpEntry)
      ∈ installed_plugin_help_entries (.ok ms) :=
    mem_installed.mpr ⟨m, hm, hh, rfl⟩
  have hany : (installed_plugin_help_entries (.ok ms)).any
      (fun e => e.name == m.name) = true :=
    any_name_iff.mpr ⟨_, hmem, rfl⟩
  unfold plugin_help_entries
  rw [filter_foldl_pushPredefined pre _ _ hany]
  exact installed_filter_eq hnd hm hh

/-- Witness for C3: `cloud` installed with description `local` and also
predefined with description `predef`. -/
theorem local_description_wins_witness :
    (plugin_help_entries (.ok [⟨"cloud", some "local"⟩]) [("cloud", "predef")]).filter
        (fun e => e.name == "cloud")
      = [⟨"cloud", "local"⟩] :=
  local_description_wins [⟨"cloud", some "local"⟩] [("cloud", "predef")]
    (by decide) ⟨"cloud", some "local"⟩ (by decide) (by decide) "predef" (by decide)

/-- C4 (counterexample): the reserved-prefix filter is applied to installed
manifests only; a predefined table entry whose name begins with `trigger-`
does land in the assembled catalog. -/
theorem trigger_prefix_in_catalog_counterexample :
    plugin_help_entries (.ok []) [("trigger-y", "d")] = [⟨"trigger-y", "d"⟩] ∧
    strStartsWith "trigger-y" "trigger-" = true := by
  decide

/-- C4 (amended): no catalog entry with a `trigger-`-prefixed name ever comes
from an installed manifest — any such entry can only be a pair of the
predefined externals table, which is not prefix-filtered. -/
theorem trigger_prefix_only_from_predefined
    (store : StoreResult) (pre : List (String × String)) (e : PluginHelpEntry)
    (he : e ∈ plugin_help_entries store pre)
    (ht : strStartsWith e.name "trigger-" = true) :
    (e.name, e.about) ∈ pre := by
  rcases mem_foldl_pushPredefined pre _ e he with h | h
  · exfalso
    cases store with
    | managerErr => cases h
    | manifestsErr => cases h
    | ok ms =>
      rcases mem_installed.mp h with ⟨m, _, hhide, rfl⟩
      have ht' : strStartsWith m.name "trigger-" = true := ht
      have hhide' : strStartsWith m.name "trigger-" = false := hhide
      rw [ht'] at hhide'
      exact Bool.noConfusion hhide'
  · exact h

/-- Witness for the amended C4: a `trigger-y` predefined pair reaches the
catalog while the installed `trigger-x` manifest is filtered out. -/
theorem trigger_prefix_only_from_predefined_witness :
    (("trigger-y", "d") : String × String) ∈ [("trigger-y", "d")] :=
  trigger_prefix_only_from_predefined (.ok [⟨"trigger-x", some "z"⟩])
    [("trigger-y", "d")] ⟨"trigger-y", "d"⟩ (by decide) (by decide)

/-- C5: a parsed subcommand equal to a statically declared built-in name and
to no catalog entry's name is dispatched through `SpinApp::run` to the variant
declared under that name, and is never handed to
`execute_external_subcommand`. -/
theorem builtin_name_runs_builtin
    (entries : List PluginHelpEntry) (args : List String) (subcmd : String)
    (hp : parsed_subcommand args = some subcmd)
    (hb : subcmd ∈ spinAppBuiltinNames)
    (hnc : ∀ e ∈ entries, e.name ≠ subcmd) :
    mainDispatch entries args
        = .builtinHandler (SpinApp.from_arg_matches subcmd args.tail) ∧
    (SpinApp.from_arg_matches subcmd args.tail).builtinName = some subcmd ∧
    (mainDispatch entries args).forwardsExternal = false := by
  have hc : catalogMatch entries subcmd = false := by
    cases h : catalogMatch entries subcmd with
    | false => rfl
    | true =>
      rcases any_name_iff.mp h with ⟨e, he, hn⟩
      exact absurd hn (hnc e he)
  have hd : mainDispatch entries args
      = SpinApp.run (SpinApp.from_arg_matches subcmd args.tail) := by
    unfold mainDispatch
    rw [hp]
    simp [hc]
  fin_cases hb <;> exact ⟨hd.trans rfl, rfl, by rw [hd]; rfl⟩

/-- Witness for C5 at `spin build` with an empty catalog. -/
theorem builtin_name_runs_builtin_witness :
    mainDispatch [] ["build"]
        = .builtinHandler (SpinApp.from_arg_matches "build" (["build"] : List String).tail) ∧
    (SpinApp.from_arg_matches "build" (["build"] : List String).tail).builtinName
        = some "build" ∧
    (mainDispatch [] ["build"]).forwardsExternal = false :=
  builtin_name_runs_builtin [] ["build"] "build" (by decide) (by decide) (by decide)

/-- C6: with exactly two underlying causes `print_error_chain` emits the
`Caused by:` header and the two numbered lines `0:` and `1:`; with exactly one
cause the single line is indented and unnumbered; with no cause nothing is
printed. -/
theorem error_chain_print_shape (m c1 c2 : String) :
    print_error_chain ⟨m, [c1, c2]⟩
        = ["", "Caused by:", "   0: " ++ c1, "   1: " ++ c2] ∧
    print_error_chain ⟨m, [c1]⟩ = ["", "Caused by:", "      " ++ c1] ∧
    print_error_chain ⟨m, []⟩ = [] := by
  refine ⟨?_, rfl, rfl⟩
  have h : print_error_chain ⟨m, [c1, c2]⟩
      = ["", "Caused by:", rightAlign4 0 ++ ": " ++ c1, rightAlign4 1 ++ ": " ++ c2] := rfl
  rw [h, show rightAlign4 0 = "   0" from rfl, show rightAlign4 1 = "   1" from rfl,
     show ("   0" : String) ++ ": " = "   0: " from rfl,
     show ("   1" : String) ++ ": " = "   1: " from rfl]

/-- C7: when opening the store or listing manifests fails, the installed
entry list is empty and the assembled catalog (a total function — assembly
cannot fail) consists solely of pairs of the predefined table. -/
theorem store_failure_degrades_to_predefined
    (pre : List (String × String)) (store : StoreResult)
    (h : store = .managerErr ∨ store = .manifestsErr) :
    installed_plugin_help_entries store = [] ∧
    (plugin_help_entries store pre).all
      (fun e => pre.contains (e.name, e.about)) = true := by
  have hi : installed_plugin_help_entries store = [] := by
    rcases h with rfl | rfl <;> rfl
  refine ⟨hi, ?_⟩
  rw [List.all_eq_true]
  intro e he
  rcases mem_foldl_pushPredefined pre _ e he with h' | h'
  · rw [hi] at h'
    cases h'
  · exact List.elem_iff.mpr h'

/-- Witness for C7 with a failed store and the one-pair table `cloud`. -/
theorem store_failure_degrades_to_predefined_witness :
    installed_plugin_help_entries .managerErr = [] ∧
    (plugin_help_entries .managerErr [("cloud", "d")]).all
      (fun e => [("cloud", "d")].contains (e.name, e.about)) = true :=
  store_failure_degrades_to_predefined [("cloud", "d")] .managerErr (Or.inl rfl)

/-- C8: catalog entry names are pairwise distinct, given that the store's
installed manifests carry pairwise distinct names (the predefined pass pushes
a pair only when its name is not yet present). -/
theorem catalog_names_nodup (store : StoreResult) (pre : List (String × String))
    (h : ((installed_plugin_help_entries store).map PluginHelpEntry.name).Nodup) :
    ((plugin_help_entries store pre).map PluginHelpEntry.name).Nodup :=
  nodup_foldl_pushPredefined pre _ h

/-- Witness for C8: two installed plugins, one colliding predefined pair and
one fresh predefined pair. -/
theorem catalog_names_nodup_witness :
    ((plugin_help_entries (.ok [⟨"cloud", some "x"⟩, ⟨"other", none⟩])
        [("cloud", "y"), ("extra", "z")]).map PluginHelpEntry.name).Nodup :=
  catalog_names_nodup (.ok [⟨"cloud", some "x"⟩, ⟨"other", none⟩])
    [("cloud", "y"), ("extra", "z")] (by decide)

/-- C9: the `* implemented via plugin` footer is attached to the command tree
exactly when the assembled catalog is non-empty; with an empty catalog the
tree carries no footer. -/
theorem after_help_iff_nonempty (entries : List PluginHelpEntry) :
    ((mainCommandTree entries).after_help = some "* implemented via plugin"
        ↔ entries ≠ []) ∧
    (mainCommandTree []).after_help = none := by
  refine ⟨?_, rfl⟩
  unfold mainCommandTree
  cases entries with
  | nil => simp [SpinApp.command]
  | cons a l => simp [SpinApp.command]

/-- C10: each synthetic node is registered under the marked display text
(name plus `*`) while the dispatch check compares unmarked names; with
star-free catalog names and built-in names reserved, the marked name never
satisfies the catalog-match condition and no tree node exists under the
unmarked name. -/
theorem marked_node_unmarked_dispatch
    (entries : List PluginHelpEntry) (e : PluginHelpEntry) (he : e ∈ entries)
    (hstar : ∀ e' ∈ entries, ('*' : Char) ∉ e'.name.data)
    (hres : ∀ e' ∈ entries, e'.name ∉ spinAppBuiltinNames) :
    e.display_text = e.name ++ "*" ∧
    e.display_text ∈ (mainCommandTree entries).subcommand_names ∧
    catalogMatch entries (e.name ++ "*") = false ∧
    e.name ∉ (mainCommandTree entries).subcommand_names := by
  have hmark : ∀ s : String, ('*' : Char) ∈ (s ++ "*").data := by
    intro s
    rw [String.data_append]
    exact List.mem_append_right _ (by decide)
  refine ⟨rfl, ?_, ?_, ?_⟩
  · rw [mainCommandTree_names]
    exact List.mem_append_right _ (List.mem_map.mpr ⟨e, he, rfl⟩)
  · cases h : catalogMatch entries (e.name ++ "*") with
    | false => rfl
    | true =>
      rcases any_name_iff.mp h with ⟨e', he', hn⟩
      have hmem : ('*' : Char) ∈ e'.name.data := by
        rw [hn]
        exact hmark e.name
      exact absurd hmem (hstar e' he')
  · rw [mainCommandTree_names]
    intro hmem
    rcases List.mem_append.mp hmem with h | h
    · exact hres e he h
    · rcases List.mem_map.mp h with ⟨e', _, hdisp⟩
      have hm2 : ('*' : Char) ∈ e.name.data := by
        rw [← hdisp]
        exact hmark e'.name
      exact absurd hm2 (hstar e he)

/-- Witness for C10 at the one-entry catalog `cloud`. -/
theorem marked_node_unmarked_dispatch_witness :
    PluginHelpEntry.display_text ⟨"cloud", "d"⟩ = "cloud" ++ "*" ∧
    PluginHelpEntry.display_text ⟨"cloud", "d"⟩
        ∈ (mainCommandTree [⟨"cloud", "d"⟩]).subcommand_names ∧
    catalogMatch [⟨"cloud", "d"⟩] ("cloud" ++ "*") = false ∧
    "cloud" ∉ (mainCommandTree [⟨"cloud", "d"⟩]).subcommand_names :=
  marked_node_unmarked_dispatch [⟨"cloud", "d"⟩] ⟨"cloud", "d"⟩
    (by decide) (by decide) (by decide)

end Spin
